import Mathlib

/-!
Verification development for the discrete-event cluster simulator in
src/cluster_simulator.py (classes Metric, Task, Pod, Deployment,
SimpleCluster).

Shallow embedding conventions:
* Python floats and ints are modelled by the rationals; every quantity the
  simulator manipulates here stays exact.
* Every call to np.random.normal(0, std) is modelled by reading one value
  from an explicit noise stream (a function from draw index to a rational)
  at a cursor position that is threaded through the computation, so the
  i-th draw of a run is the stream value at i.  A draw of a normal
  distribution can be any real number, so the stream values are
  unconstrained.
* The simpy event machinery is modelled by an explicit list of scheduled
  completion events ordered by (time, sequence id); simpy fires, within
  run(until), exactly the pending events whose time is strictly below
  until, in (time, insertion id) order, because the stop event at until is
  scheduled with urgent priority.  A generator passed to env.process starts
  running at the simulated instant of its creation, so the code of
  Pod._startTask up to the yield (task.startProcessing and the creation of
  the timeout at now + duration) is performed at dispatch time.
* Python object identity is modelled by numeric ids for pods (a fresh-id
  counter) and by list positions for deployments (the deployments of a
  SimpleCluster are distinct objects, so list.index finds the position of
  the very deployment that was passed).
* An IndexError raised by list.pop is modelled by a crash flag: the state
  mutated before the raise is kept, the rest of the raising call is
  skipped.
-/

set_option maxRecDepth 16000

namespace ClusterSim

/-- Embedding of np.clip: np.clip(x, lo, hi) is min (max x lo) hi. -/
def npClip (x lo hi : ℚ) : ℚ := min (max x lo) hi

/-- Embedding of Pod.getMetricUsage from src/cluster_simulator.py.  The
value drawn by np.random.normal(loc 0, scale std) is the explicit noise
argument.  The source clips usage to the interval from usage - 3 std to
usage + 3 std, an interval centered at usage itself.  Python int applied
to max(1, usage) truncates toward zero, and the argument is at least 1,
so it is the floor. -/
def getMetricUsage (metric_task metric_rand noise : ℚ) : ℤ :=
  let std := metric_task * metric_rand
  let usage := metric_task + noise
  let clipped := npClip usage (usage - 3 * std) (usage + 3 * std)
  Int.floor (max 1 clipped)

/-- Embedding of class Task.  The diagnostic fields pod, deployment, cpu
and memory mirror the Python attributes of the same names. -/
structure Task where
  life_time : ℚ
  life_time_base : ℚ
  pod : Option Nat
  deployment : Option String
  cpu : Option ℚ
  memory : Option ℚ
deriving DecidableEq, Repr

/-- Task.__init__ with a given life_time. -/
def Task.init (life_time : ℚ) : Task :=
  ⟨life_time, life_time, none, none, none, none⟩

/-- Task.updateLifeTime. -/
def Task.updateLifeTime (t : Task) (elapsed_time : ℚ) : Task :=
  { t with life_time := t.life_time - elapsed_time }

/-- Task.startProcessing. -/
def Task.startProcessing (t : Task) (elapsed_time : ℚ)
    (pod : Option Nat) (cpu memory : Option ℚ) : Task :=
  ({ t with pod := pod, cpu := cpu, memory := memory }).updateLifeTime elapsed_time

/-- Task.isAlive: life_time strictly positive. -/
def Task.isAlive (t : Task) : Bool := decide (0 < t.life_time)

/-- Embedding of class Pod.  The id field stands for the identity of the
Python object (closures keep a reference to the pod even after it is
removed from its deployment). -/
structure Pod where
  id : Nat
  duration_task : ℚ
  duration_rand : ℚ
  cpu_task : ℚ
  cpu_rand : ℚ
  cpu_base : ℚ
  memory_task : ℚ
  memory_rand : ℚ
  memory_base : ℚ
  cpu_max : ℚ
  memory_max : ℚ
  nr_tasks : Nat
  nr_active_tasks : Nat
  nr_done_tasks : Nat
  cpu : ℚ
  memory : ℚ
deriving DecidableEq, Repr

/-- Pod.getCpuUsage: one draw of the cpu sampler. -/
def Pod.getCpuUsage (p : Pod) (noise : ℚ) : ℤ :=
  getMetricUsage p.cpu_task p.cpu_rand noise

/-- Pod.getMemoryUsage: one draw of the memory sampler. -/
def Pod.getMemoryUsage (p : Pod) (noise : ℚ) : ℤ :=
  getMetricUsage p.memory_task p.memory_rand noise

/-- Pod.canProcess.  Exactly as in the source: the first draw uses the cpu
sampler; when the cpu check passes, the memory check draws AGAIN FROM THE
CPU SAMPLER (the source calls self.getCpuUsage for memory_usage as well).
Returns the boolean and the advanced noise cursor; an early cpu failure
consumes a single draw. -/
def Pod.canProcess (p : Pod) (ρ : Nat → ℚ) (pos : Nat) : Bool × Nat :=
  let cpu_usage := p.getCpuUsage (ρ pos)
  if p.cpu_max < p.cpu + (cpu_usage : ℚ) then (false, pos + 1)
  else
    let memory_usage := p.getCpuUsage (ρ (pos + 1))
    if p.memory_max < p.memory + (memory_usage : ℚ) then (false, pos + 2)
    else (true, pos + 2)

/-- A scheduled completion event: the pending continuation of
Pod._startTask after its yield.  It records the deployment position and
pod id captured by the closure, the task value after startProcessing, and
the exact cpu and memory amounts charged at dispatch. -/
structure Ev where
  time : ℚ
  seq : Nat
  dep : Nat
  podId : Nat
  task : Task
  cpu_usage : ℚ
  memory_usage : ℚ
deriving DecidableEq, Repr

/-- Pod.addTask.  Draws fresh cpu, memory and duration samples (three
draws: cpu sampler, memory sampler, duration sampler), charges usage and
the active counter immediately, runs task.startProcessing (the generator
given to env.process starts at the same simulated instant and passes
pod, cpu and memory as None), and schedules the completion at
now + duration.  Returns the updated pod, the scheduled event and the
advanced noise cursor. -/
def Pod.addTask (p : Pod) (t : Task) (ρ : Nat → ℚ) (pos : Nat)
    (now : ℚ) (seq : Nat) (depIdx : Nat) : Pod × Ev × Nat :=
  let p1 := { p with nr_tasks := p.nr_tasks + 1 }
  let cpu_usage : ℚ := (p1.getCpuUsage (ρ pos) : ℤ)
  let memory_usage : ℚ := (p1.getMemoryUsage (ρ (pos + 1)) : ℤ)
  let duration : ℚ := (getMetricUsage p1.duration_task p1.duration_rand (ρ (pos + 2)) : ℤ)
  let p2 := { p1 with
    cpu := p1.cpu + cpu_usage
    memory := p1.memory + memory_usage
    nr_active_tasks := p1.nr_active_tasks + 1 }
  let t2 := t.startProcessing duration none none none
  (p2, ⟨now + duration, seq, depIdx, p2.id, t2, cpu_usage, memory_usage⟩, pos + 3)

/-- Embedding of class Deployment (its per-object attributes). -/
structure Deployment where
  name : String
  to_remove : Nat
  nr_dead : Nat
  nr_done : Nat
  nr_err5xx : Nat
  tasks : List Task
  pods : List Pod
  queue_length : Nat
  duration_task : ℚ
  duration_rand : ℚ
  cpu_task : ℚ
  cpu_rand : ℚ
  cpu_base : ℚ
  memory_task : ℚ
  memory_rand : ℚ
  memory_base : ℚ
deriving DecidableEq, Repr

/-- The pod appended by Deployment.addPod: Pod(env, self, duration_task,
duration_rand, cpu_task, cpu_rand, cpu_base, memory_task, memory_rand,
memory_base); cpu_max and memory_max are left at the Pod defaults of 100,
and a fresh pod starts at base usage with no tasks. -/
def mkPod (fresh : Nat) (d : Deployment) : Pod :=
  { id := fresh
    duration_task := d.duration_task, duration_rand := d.duration_rand
    cpu_task := d.cpu_task, cpu_rand := d.cpu_rand, cpu_base := d.cpu_base
    memory_task := d.memory_task, memory_rand := d.memory_rand
    memory_base := d.memory_base
    cpu_max := 100, memory_max := 100
    nr_tasks := 0, nr_active_tasks := 0, nr_done_tasks := 0
    cpu := d.cpu_base, memory := d.memory_base }

/-- The global simulation state: the SimpleCluster object (deployments in
chain order, nr_tasks submitted, nr_done completed), the simpy environment
(clock and pending events), the noise cursor, the event sequence counter,
the fresh pod id supply, and the crash flag for a raised IndexError. -/
structure World where
  deps : List Deployment
  events : List Ev
  now : ℚ
  pos : Nat
  seq : Nat
  fresh : Nat
  nr_tasks : Nat
  nr_done : Nat
  crashed : Bool
deriving DecidableEq, Repr

/-- First loop of Deployment.update: enumerate the pods, and for each pod
with no active task, while to_remove is positive, record its index and
decrement to_remove.  Returns the recorded indices (in increasing order)
and the remaining to_remove. -/
def removeScan : List Pod → Nat → Nat → List Nat × Nat
  | [], tr, _ => ([], tr)
  | p :: ps, tr, i =>
    if p.nr_active_tasks = 0 ∧ 0 < tr then
      let rest := removeScan ps (tr - 1) (i + 1)
      (i :: rest.1, rest.2)
    else removeScan ps tr (i + 1)

/-- Second loop of Deployment.update: for each recorded index r, if the
pod list still has more than one pod, pop position r.  Python list.pop
raises IndexError when r is out of range; the boolean result records such
a crash (the pops performed before it are kept, as in Python). -/
def popLoop : List Nat → List Pod → List Pod × Bool
  | [], pods => (pods, false)
  | r :: rest, pods =>
    if 1 < pods.length then
      if r < pods.length then
        popLoop rest (pods.take r ++ pods.drop (r + 1))
      else (pods, true)
    else popLoop rest pods

/-- Third loop of Deployment.update: for each pod in order, if the queue
is nonempty, draw canProcess on the head task; if it fits, pop the head
and dispatch it to the pod via Pod.addTask.  Returns the pods (with the
dispatched ones updated, in place), the remaining queue, the appended
events, and the advanced noise and sequence cursors. -/
def dispatchLoop (ρ : Nat → ℚ) (now : ℚ) (depIdx : Nat) :
    List Pod → List Task → List Ev → Nat → Nat →
    List Pod × List Task × List Ev × Nat × Nat
  | [], tasks, evs, pos, seq => ([], tasks, evs, pos, seq)
  | p :: ps, [], evs, pos, seq => (p :: ps, [], evs, pos, seq)
  | p :: ps, t :: rest, evs, pos, seq =>
    let c := p.canProcess ρ pos
    if c.1 then
      let r := p.addTask t ρ c.2 now seq depIdx
      let out := dispatchLoop ρ now depIdx ps rest (evs ++ [r.2.1]) r.2.2 (seq + 1)
      (r.1 :: out.1, out.2.1, out.2.2.1, out.2.2.2.1, out.2.2.2.2)
    else
      let out := dispatchLoop ρ now depIdx ps (t :: rest) evs c.2 seq
      (p :: out.1, out.2.1, out.2.2.1, out.2.2.2.1, out.2.2.2.2)

/-- The body of Deployment.update acting on one deployment: removal scan,
guarded pops (on an IndexError the state mutated so far is kept, the
crash flag is raised and dispatch is skipped), then the dispatch loop.
Returns the deployment, the event list, the noise and sequence cursors,
and the crash flag. -/
def updateCore (ρ : Nat → ℚ) (now : ℚ) (i : Nat) (d : Deployment)
    (evs : List Ev) (pos seq : Nat) :
    Deployment × List Ev × Nat × Nat × Bool :=
  let scan := removeScan d.pods d.to_remove 0
  let popped := popLoop scan.1 d.pods
  if popped.2 then
    ({ d with to_remove := scan.2, pods := popped.1 }, evs, pos, seq, true)
  else
    let out := dispatchLoop ρ now i popped.1 d.tasks evs pos seq
    ({ d with to_remove := scan.2, pods := out.1, tasks := out.2.1 },
      out.2.2.1, out.2.2.2.1, out.2.2.2.2, false)

/-- Deployment.update for the deployment at position i of the chain. -/
def Deployment.updateW (ρ : Nat → ℚ) (w : World) (i : Nat) : World :=
  match w.deps.get? i with
  | none => w
  | some d =>
    let c := updateCore ρ w.now i d w.events w.pos w.seq
    { w with
      deps := w.deps.set i c.1
      events := c.2.1
      pos := c.2.2.1
      seq := c.2.2.2.1
      crashed := w.crashed || c.2.2.2.2 }

/-- Deployment.addPod on the deployment at position i. -/
def Deployment.addPodW (w : World) (i : Nat) : World :=
  match w.deps.get? i with
  | none => w
  | some d =>
    { w with
      deps := w.deps.set i { d with pods := d.pods ++ [mkPod w.fresh d] }
      fresh := w.fresh + 1 }

/-- Deployment.removePod on the deployment at position i: increment
to_remove, then update. -/
def removePodW (ρ : Nat → ℚ) (w : World) (i : Nat) : World :=
  match w.deps.get? i with
  | none => w
  | some d =>
    Deployment.updateW ρ
      { w with deps := w.deps.set i { d with to_remove := d.to_remove + 1 } } i

/-- Deployment.addTask on the deployment at position i: record the
deployment name on the task, reject (count a 5xx) when the queue already
holds more than queue_length tasks, otherwise append; in both cases run
update. -/
def Deployment.addTaskW (ρ : Nat → ℚ) (w : World) (i : Nat) (t : Task) : World :=
  match w.deps.get? i with
  | none => w
  | some d =>
    let t1 := { t with deployment := some d.name }
    let w1 :=
      if d.queue_length < d.tasks.length then
        { w with deps := w.deps.set i { d with nr_err5xx := d.nr_err5xx + 1 } }
      else
        { w with deps := w.deps.set i { d with tasks := d.tasks ++ [t1] } }
    Deployment.updateW ρ w1 i

/-- SimpleCluster.taskFinished for the deployment at position i: if a
later stage exists, forward the task to its addTask, else increment the
completed counter.  (list.index finds i because the deployments are
distinct objects.) -/
def taskFinishedW (ρ : Nat → ℚ) (w : World) (i : Nat) (t : Task) : World :=
  if i + 1 < w.deps.length then Deployment.addTaskW ρ w (i + 1) t
  else { w with nr_done := w.nr_done + 1 }

/-- Deployment.taskDone for the deployment at position i: dead tasks bump
nr_dead, live ones bump nr_done and are forwarded through the cluster
(SimpleCluster always sets itself as the cluster of its deployments). -/
def Deployment.taskDoneW (ρ : Nat → ℚ) (w : World) (i : Nat) (t : Task) : World :=
  match w.deps.get? i with
  | none => w
  | some d =>
    if t.isAlive then
      taskFinishedW ρ { w with deps := w.deps.set i { d with nr_done := d.nr_done + 1 } } i t
    else
      { w with deps := w.deps.set i { d with nr_dead := d.nr_dead + 1 } }

/-- Firing one scheduled completion: the code of Pod._startTask after the
yield.  The closure mutates the captured pod object: when the pod is
still in its deployment the change is visible there, otherwise the object
is orphaned and the mutation is unobservable; max(0, n-1) on a natural
number is truncated subtraction.  Then the owning deployment is notified
through taskDone. -/
def fireEventW (ρ : Nat → ℚ) (w : World) (ev : Ev) : World :=
  let w1 :=
    match w.deps.get? ev.dep with
    | none => w
    | some d =>
      { w with
        deps := w.deps.set ev.dep
          { d with pods := d.pods.map fun p =>
              if p.id = ev.podId then
                { p with
                  nr_active_tasks := p.nr_active_tasks - 1
                  cpu := p.cpu - ev.cpu_usage
                  memory := p.memory - ev.memory_usage
                  nr_done_tasks := p.nr_done_tasks + 1 }
              else p } }
  Deployment.taskDoneW ρ w1 ev.dep ev.task

/-- The earliest pending event strictly before the stop time, ordered by
(time, sequence id) exactly as the simpy event heap. -/
def pickNext (evs : List Ev) (stop : ℚ) : Option Ev :=
  evs.foldl
    (fun best e =>
      if e.time < stop then
        match best with
        | none => some e
        | some b =>
          if e.time < b.time ∨ (e.time = b.time ∧ e.seq < b.seq) then some e
          else some b
      else best)
    none

/-- The simpy main loop of env.run(until = stop): repeatedly fire the
earliest pending event strictly before stop, then set the clock to stop.
The fuel bounds the number of firings; none means the fuel ran out before
the loop drained (the concrete runs below never exhaust it). -/
def runLoop (ρ : Nat → ℚ) : Nat → World → ℚ → Option World
  | 0, _, _ => none
  | fuel + 1, w, stop =>
    match pickNext w.events stop with
    | none => some { w with now := stop }
    | some ev =>
      runLoop ρ fuel
        (fireEventW ρ
          { w with events := w.events.filter (fun e => e.seq ≠ ev.seq), now := ev.time }
          ev)
        stop

/-- SimpleCluster.update(steps): run the environment until now + steps. -/
def clusterUpdateW (ρ : Nat → ℚ) (fuel : Nat) (w : World) (steps : ℚ) : Option World :=
  runLoop ρ fuel w (w.now + steps)

/-- SimpleCluster.addTasks: nr_tasks times, increment the submitted
counter and hand a fresh Task to the first deployment. -/
def addTasksW (ρ : Nat → ℚ) (w : World) : Nat → ℚ → World
  | 0, _ => w
  | n + 1, life_time =>
    addTasksW ρ
      (Deployment.addTaskW ρ { w with nr_tasks := w.nr_tasks + 1 } 0 (Task.init life_time))
      n life_time

/-- Rounding half to even on a rational, the rounding rule of np.round. -/
def roundHalfEven (q : ℚ) : ℤ :=
  let f := Int.floor q
  let r := q - f
  if r < 1 / 2 then f
  else if 1 / 2 < r then f + 1
  else if Even f then f else f + 1

/-- np.round(x, 2): round half to even at two decimal places. -/
def npRound2 (q : ℚ) : ℚ := (roundHalfEven (q * 100) : ℚ) / 100

/-- The single accumulation loop of Deployment.getMetrics over the pods:
active pods, active tasks (counted only on pods with a positive active
count), cpu, cpu capacity, memory, memory capacity. -/
def metricAccum (pods : List Pod) : Nat × Nat × ℚ × ℚ × ℚ × ℚ :=
  pods.foldl
    (fun acc p =>
      let ap := if 0 < p.nr_active_tasks then acc.1 + 1 else acc.1
      let atk := if 0 < p.nr_active_tasks then acc.2.1 + p.nr_active_tasks else acc.2.1
      (ap, atk, acc.2.2.1 + p.cpu, acc.2.2.2.1 + p.cpu_max,
        acc.2.2.2.2.1 + p.memory, acc.2.2.2.2.2 + p.memory_max))
    (0, 0, 0, 0, 0, 0)

/-- The eleven-entry list returned by Deployment.getMetrics, in the fixed
order of the source: pod count, active pods, active tasks, cpu usage
rounded to two decimals, cpu capacity, memory usage rounded, memory
capacity, queue length, done, dead, 5xx. -/
def metricList (d : Deployment) : List ℚ :=
  let acc := metricAccum d.pods
  [(d.pods.length : ℚ), (acc.1 : ℚ), (acc.2.1 : ℚ),
   npRound2 acc.2.2.1, acc.2.2.2.1, npRound2 acc.2.2.2.2.1, acc.2.2.2.2.2,
   (d.tasks.length : ℚ), (d.nr_done : ℚ), (d.nr_dead : ℚ), (d.nr_err5xx : ℚ)]

/-- Deployment.getMetrics on the deployment at position i: update first,
then read off the metric list.  Returns the list and the updated world. -/
def Deployment.getMetricsW (ρ : Nat → ℚ) (w : World) (i : Nat) : List ℚ × World :=
  let w1 := Deployment.updateW ρ w i
  ((match w1.deps.get? i with
    | none => []
    | some d => metricList d), w1)

/-- SimpleCluster.updateDeployments: zip the action list with the
deployment chain; 1 adds a pod, -1 requests a removal, anything else is a
no-op (the chain length never changes while iterating, so the positional
guard mirrors the zip truncation). -/
def updateDeploymentsGo (ρ : Nat → ℚ) : List ℤ → Nat → World → World
  | [], _, w => w
  | a :: rest, i, w =>
    if i < w.deps.length then
      let w1 := if a = 1 then Deployment.addPodW w i
                else if a = -1 then removePodW ρ w i
                else w
      updateDeploymentsGo ρ rest (i + 1) w1
    else w

/-- SimpleCluster.updateDeployments entry point. -/
def updateDeploymentsW (ρ : Nat → ℚ) (w : World) (actions : List ℤ) : World :=
  updateDeploymentsGo ρ actions 0 w

/-- Deployment.__init__ before the addPod loop: counters at zero, empty
queue and pod list, the given queue bound and pod resource profile. -/
def initDeploymentBare (name : String) (queue_length : Nat)
    (duration_task duration_rand cpu_task cpu_rand cpu_base
     memory_task memory_rand memory_base : ℚ) : Deployment :=
  { name := name, to_remove := 0, nr_dead := 0, nr_done := 0, nr_err5xx := 0
    tasks := [], pods := [], queue_length := queue_length
    duration_task := duration_task, duration_rand := duration_rand
    cpu_task := cpu_task, cpu_rand := cpu_rand, cpu_base := cpu_base
    memory_task := memory_task, memory_rand := memory_rand
    memory_base := memory_base }

/-- The addPod loop of Deployment.__init__, run starting_pods times,
threading the fresh pod id supply. -/
def addPodsN : Nat → Deployment → Nat → Deployment × Nat
  | 0, d, fresh => (d, fresh)
  | n + 1, d, fresh => addPodsN n { d with pods := d.pods ++ [mkPod fresh d] } (fresh + 1)

/-- Deployment.__init__ with explicit parameters (the Python defaults are
queue_length 100, duration 1000 and 0.1, cpu 20, 0.1, 1, memory 20, 0.1,
1; callers below pass what the scenario uses).  The name stands for the
str(id(self)) default, a diagnostic only. -/
def initDeployment (name : String) (starting_pods : Nat) (queue_length : Nat)
    (duration_task duration_rand cpu_task cpu_rand cpu_base
     memory_task memory_rand memory_base : ℚ) (fresh : Nat) : Deployment × Nat :=
  addPodsN starting_pods
    (initDeploymentBare name queue_length duration_task duration_rand
      cpu_task cpu_rand cpu_base memory_task memory_rand memory_base) fresh

/-- The deployment-construction loop of SimpleCluster.__init__: one
deployment per (duration, starting pods) pair, with cpu_base and
memory_base 5 and every other Deployment parameter at its default. -/
def initClusterGo : List (ℚ × Nat) → Nat → Nat → List Deployment × Nat
  | [], _, fresh => ([], fresh)
  | (dur, np) :: rest, idx, fresh =>
    let dp := initDeployment (toString idx) np 100 dur (1 / 10) 20 (1 / 10) 5 20 (1 / 10) 5 fresh
    let out := initClusterGo rest (idx + 1) dp.2
    (dp.1 :: out.1, out.2)

/-- SimpleCluster.__init__ with a duration and a starting-pod count per
deployment (zip truncates like the Python zip), fresh environment, both
cluster counters at zero. -/
def initCluster (durations : List ℚ) (podCounts : List Nat) : World :=
  let built := initClusterGo (durations.zip podCounts) 0 0
  { deps := built.1, events := [], now := 0, pos := 0, seq := 0, fresh := built.2
    nr_tasks := 0, nr_done := 0, crashed := false }

/-- A world holding one standalone deployment, as when class Deployment is
instantiated directly. -/
def mkWorld1 (dp : Deployment × Nat) : World :=
  { deps := [dp.1], events := [], now := 0, pos := 0, seq := 0, fresh := dp.2
    nr_tasks := 0, nr_done := 0, crashed := false }

/-- The record filled by Metric.setMetric of the simulator module.  Each
field holds the raw list entry (itself an optional value, since the
padding appends None). -/
structure MetricRec (α : Type) where
  pods : Option α
  activePods : Option α
  activeTasks : Option α
  cpu : Option α
  cpu_max : Option α
  memory : Option α
  memory_max : Option α
  queueTasks : Option α
  nrDone : Option α
  nrDead : Option α
  nrErr5xx : Option α
deriving DecidableEq, Repr

/-- The padding branch of Metric.setMetric: a list shorter than 7 is
extended with None entries up to length 7 exactly; a longer list is left
alone. -/
def padTo7 (metric : List (Option α)) : List (Option α) :=
  if metric.length < 7 then metric ++ List.replicate (7 - metric.length) none
  else metric

/-- Metric.setMetric: after the padding branch, the eleven indices 0
through 10 are read unconditionally and in order.  A read past the end
raises IndexError at that point, modelled by the Option bind; the record
is produced only when every read lands in range. -/
def setMetric (metric : List (Option α)) : Option (MetricRec α) := do
  let pods ← (padTo7 metric).get? 0
  let activePods ← (padTo7 metric).get? 1
  let activeTasks ← (padTo7 metric).get? 2
  let cpu ← (padTo7 metric).get? 3
  let cpu_max ← (padTo7 metric).get? 4
  let memory ← (padTo7 metric).get? 5
  let memory_max ← (padTo7 metric).get? 6
  let queueTasks ← (padTo7 metric).get? 7
  let nrDone ← (padTo7 metric).get? 8
  let nrDead ← (padTo7 metric).get? 9
  let nrErr5xx ← (padTo7 metric).get? 10
  pure ⟨pods, activePods, activeTasks, cpu, cpu_max, memory, memory_max,
        queueTasks, nrDone, nrDead, nrErr5xx⟩

/-- The task-conservation ledger of the cluster: tasks queued across the
chain, tasks actively processing in the pods currently held by the chain,
cumulative rejections, cumulative deaths, and the cluster completed
counter. -/
def queuedCount (w : World) : Nat := (w.deps.map fun d => d.tasks.length).sum

/-- Active tasks summed over the pods the deployments currently hold. -/
def processingCount (w : World) : Nat :=
  (w.deps.map fun d => (d.pods.map Pod.nr_active_tasks).sum).sum

/-- Cumulative 5xx rejections over the chain. -/
def rejectedCount (w : World) : Nat := (w.deps.map Deployment.nr_err5xx).sum

/-- Cumulative dead tasks over the chain. -/
def deadCount (w : World) : Nat := (w.deps.map Deployment.nr_dead).sum

/-- The right-hand side of the conservation identity claimed by the
specification. -/
def conservationSum (w : World) : Nat :=
  queuedCount w + processingCount w + rejectedCount w + deadCount w + w.nr_done

/-- The operations through which simulator code ever touches the state:
the public SimpleCluster and Deployment entry points, the metrics read,
clock advance, and a raw completion firing (a superset of the reachable
firings, used for invariants). -/
inductive Op where
  | clusterAddTasks (n : Nat) (life_time : ℚ)
  | depAddTask (i : Nat) (t : Task)
  | depAddPod (i : Nat)
  | depRemovePod (i : Nat)
  | depUpdate (i : Nat)
  | depGetMetrics (i : Nat)
  | clusterRun (steps : ℚ) (fuel : Nat)
  | clusterUpdateDeps (actions : List ℤ)
  | fire (ev : Ev)

/-- One operation applied to the world.  A clusterRun that runs out of
fuel keeps the last state reached by the loop, so invariants proved over
applyOp cover every intermediate state of a run. -/
def applyOp (ρ : Nat → ℚ) (w : World) : Op → World
  | .clusterAddTasks n lt => addTasksW ρ w n lt
  | .depAddTask i t => Deployment.addTaskW ρ w i t
  | .depAddPod i => Deployment.addPodW w i
  | .depRemovePod i => removePodW ρ w i
  | .depUpdate i => Deployment.updateW ρ w i
  | .depGetMetrics i => (Deployment.getMetricsW ρ w i).2
  | .clusterRun steps fuel => (clusterUpdateW ρ fuel w steps).getD w
  | .clusterUpdateDeps actions => updateDeploymentsW ρ w actions
  | .fire ev => fireEventW ρ w ev

/-- A sequence of operations applied left to right. -/
def applyOps (ρ : Nat → ℚ) (w : World) (ops : List Op) : World :=
  ops.foldl (applyOp ρ) w

/-- The history of one pod in isolation: the pod object together with the
pending completion events that still hold charges against it, plus the
noise and sequence cursors.  This is the restriction of the world model
to one pod: dispatch is Pod.addTask, firing is the post-yield code of
Pod._startTask consuming one pending event. -/
structure PodRun where
  pod : Pod
  pending : List Ev
  pos : Nat
  seq : Nat
deriving DecidableEq, Repr

/-- An operation on a single pod: a dispatch of a task to it, or the
firing of the k-th pending completion. -/
inductive PodOp where
  | dispatch (t : Task)
  | fire (k : Nat)

/-- One pod-level operation.  Firing removes the event and performs the
exact mutation of Pod._startTask after the yield: decrement the active
count (max with 0 is truncated subtraction on a natural number) and
subtract exactly the charges recorded at dispatch. -/
def podStep (ρ : Nat → ℚ) (s : PodRun) : PodOp → PodRun
  | .dispatch t =>
    let r := s.pod.addTask t ρ s.pos 0 s.seq 0
    ⟨r.1, s.pending ++ [r.2.1], r.2.2, s.seq + 1⟩
  | .fire k =>
    match s.pending.get? k with
    | none => s
    | some ev =>
      ⟨{ s.pod with
          nr_active_tasks := s.pod.nr_active_tasks - 1
          cpu := s.pod.cpu - ev.cpu_usage
          memory := s.pod.memory - ev.memory_usage
          nr_done_tasks := s.pod.nr_done_tasks + 1 },
        s.pending.take k ++ s.pending.drop (k + 1), s.pos, s.seq⟩

/-- A sequence of pod-level operations applied left to right. -/
def runPod (ρ : Nat → ℚ) (s : PodRun) (ops : List PodOp) : PodRun :=
  ops.foldl (podStep ρ) s

/-- Modelled from the spec wording of the claim about canProcess: one
prospective cpu draw from the cpu sampler and one prospective memory draw
from the MEMORY sampler (memory_task, memory_rand), true iff both fit.
This is the comparator for the source function Pod.canProcess, which
instead draws the memory check from the cpu sampler. -/
def canProcessClaimed (p : Pod) (ρ : Nat → ℚ) (pos : Nat) : Bool × Nat :=
  let cpu_usage := p.getCpuUsage (ρ pos)
  let memory_usage := p.getMemoryUsage (ρ (pos + 1))
  (decide (p.cpu + (cpu_usage : ℚ) ≤ p.cpu_max) &&
     decide (p.memory + (memory_usage : ℚ) ≤ p.memory_max), pos + 2)

/-- The all-zero noise stream: every normal draw comes out at its mean. -/
def rho0 : Nat → ℚ := fun _ => 0

/-- Noise stream for the conservation scenario: draw 4 puts the first
duration at 10, draw 10 puts the second at 20, draws 5, 11 and 12 make
the admission checks of the already-loaded pods fail so that the three
tasks land on three different pods; every other draw is at the mean. -/
def rhoC1 : Nat → ℚ := fun n =>
  if n = 4 then -990
  else if n = 5 then 80
  else if n = 10 then -980
  else if n = 11 then 80
  else if n = 12 then 80
  else 0

/-- A one-deployment cluster with three starting pods (SimpleCluster with
durations [1000] and pods [3]). -/
def c1w0 : World := initCluster [1000] [3]

/-- Three tasks of ample lifetime submitted; under rhoC1 each lands on a
distinct pod, with completion times 10, 20 and 1000. -/
def c1w1 : World := addTasksW rhoC1 c1w0 3 1000000

/-- Two removePod requests while every pod is busy: both are deferred. -/
def c1w2 : World := removePodW rhoC1 (removePodW rhoC1 c1w1 0) 0

/-- SimpleCluster.update(100): the completions at times 10 and 20 fire,
leaving pods 0 and 1 idle; the task on pod 2 is still in flight. -/
def c1run : Option World := clusterUpdateW rhoC1 10 c1w2 100

/-- The observation point: a metrics read, whose update consumes the two
deferred removals.  The recorded removal indices are 0 and 1; after
popping index 0 the list has shifted, so popping index 1 removes the pod
that still has the in-flight task. -/
def c1final : Option World := c1run.map fun w => (Deployment.getMetricsW rhoC1 w 0).2

/-- A standalone Deployment with one pod and queue_length 0; its pod
profile (cpu 60 of 100 per task, no randomness) lets the pod take one
task and admits no second concurrent task. -/
def c2w0 : World := mkWorld1 (initDeployment "d" 1 0 1000 0 60 0 1 20 0 1 0)

/-- Scenario A, first submission: dispatched at once, the pod is busy. -/
def c2w1 : World := Deployment.addTaskW rho0 c2w0 0 (Task.init 1000000)

/-- Scenario A, second submission while the pod is busy. -/
def c2w2 : World := Deployment.addTaskW rho0 c2w1 0 (Task.init 1000000)

/-- Scenario A, a third back-to-back submission. -/
def c2w3 : World := Deployment.addTaskW rho0 c2w2 0 (Task.init 1000000)

/-- A one-pod deployment with an idle pod and a pending removal request,
for observing the removal counter being consumed at the one-pod floor. -/
def c4oneIdle : World := mkWorld1 (initDeployment "e" 1 100 1000 0 20 0 1 20 0 1 0)

/-- The pod of the canProcess counterexample: cpu profile 20 of capacity
100 with current usage 1, memory profile 50 of capacity 40 with current
usage 15, no randomness.  The source admits it (both draws use the cpu
sampler: 1 + 20 and 15 + 20 fit); a memory draw from the memory sampler
would not fit (15 + 50 exceeds 40). -/
def c5pod : Pod :=
  { id := 0, duration_task := 1000, duration_rand := 0
    cpu_task := 20, cpu_rand := 0, cpu_base := 1
    memory_task := 50, memory_rand := 0, memory_base := 15
    cpu_max := 100, memory_max := 40
    nr_tasks := 0, nr_active_tasks := 0, nr_done_tasks := 0
    cpu := 1, memory := 15 }

/-- Noise stream for the metrics-idempotence counterexample: draws 5 and
6 (the canProcess draws of the queued second task, first at its arrival
and then inside the first metrics read) are high so the task stays
queued; draw 7, consumed by the second metrics read, is at the mean so
the task is then dispatched. -/
def rhoC9 : Nat → ℚ := fun n => if n = 5 then 80 else if n = 6 then 80 else 0

/-- A one-deployment, one-pod cluster with one task in flight and a
second task queued: the state read twice by getMetrics below. -/
def c9w0 : World := addTasksW rhoC9 (initCluster [1000] [1]) 2 1000000

/-- First metrics read of the counterexample. -/
def c9m1 : List ℚ × World := Deployment.getMetricsW rhoC9 c9w0 0

/-- Second metrics read, with no clock advance and no submission in
between. -/
def c9m2 : List ℚ × World := Deployment.getMetricsW rhoC9 c9m1.2 0

/-- The one-pod floor invariant: every deployment in the chain holds at
least one pod. -/
abbrev PodsFloor (w : World) : Prop := ∀ d ∈ w.deps, 1 ≤ d.pods.length

/-- The corrected queue bound: a deployment queue never holds more than
queue_length + 1 tasks (the source admission check compares with a strict
inequality before appending). -/
abbrev QueueBound (w : World) : Prop := ∀ d ∈ w.deps, d.tasks.length ≤ d.queue_length + 1

/-- The resource-accounting invariant of a pod history: usage sits at
base plus the exact charges of the pending completions, and the active
counter equals the number of pending completions. -/
abbrev PodAcct (s : PodRun) : Prop :=
  s.pod.cpu = s.pod.cpu_base + (s.pending.map Ev.cpu_usage).sum ∧
  s.pod.memory = s.pod.memory_base + (s.pending.map Ev.memory_usage).sum ∧
  s.pod.nr_active_tasks = s.pending.length

/-! ## Helper lemmas -/

theorem forall_mem_set {P : Deployment → Prop} {l : List Deployment} {i : Nat}
    {d : Deployment} (h : ∀ x ∈ l, P x) (hd : P d) : ∀ x ∈ l.set i d, P x := by
  intro x hx
  rcases List.mem_or_eq_of_mem_set hx with h1 | h2
  · exact h x h1
  · exact h2 ▸ hd

theorem popLoop_length : ∀ (idxs : List Nat) (pods : List Pod),
    1 ≤ pods.length → 1 ≤ (popLoop idxs pods).1.length := by
  intro idxs
  induction idxs with
  | nil => intro pods h; simpa [popLoop] using h
  | cons r rest ih =>
    intro pods h
    simp only [popLoop]
    split
    · split
      · apply ih
        rename_i h1 h2
        have hlen : (pods.take r ++ pods.drop (r + 1)).length = pods.length - 1 := by
          simp [List.length_take, List.length_drop]
          omega
        omega
      · simpa using h
    · exact ih pods h

theorem dispatchLoop_spec (ρ : Nat → ℚ) (now : ℚ) (dep : Nat) :
    ∀ (pods : List Pod) (tasks : List Task) (evs : List Ev) (pos seq : Nat),
      (dispatchLoop ρ now dep pods tasks evs pos seq).1.length = pods.length ∧
      (dispatchLoop ρ now dep pods tasks evs pos seq).2.1.length ≤ tasks.length := by
  intro pods
  induction pods with
  | nil => intro tasks evs pos seq; simp [dispatchLoop]
  | cons p ps ih =>
    intro tasks evs pos seq
    cases tasks with
    | nil => simp [dispatchLoop]
    | cons t rest =>
      simp only [dispatchLoop]
      split
      · constructor
        · simpa using (ih rest _ _ _).1
        · have := (ih rest (evs ++ [(p.addTask t ρ (p.canProcess ρ pos).2 now seq dep).2.1])
            (p.addTask t ρ (p.canProcess ρ pos).2 now seq dep).2.2 (seq + 1)).2
          simpa using Nat.le_succ_of_le this
      · constructor
        · simpa using (ih (t :: rest) _ _ _).1
        · exact (ih (t :: rest) evs (p.canProcess ρ pos).2 seq).2

theorem updateCore_pods {ρ : Nat → ℚ} {now : ℚ} {i : Nat} {d : Deployment}
    {evs : List Ev} {pos seq : Nat} (h : 1 ≤ d.pods.length) :
    1 ≤ (updateCore ρ now i d evs pos seq).1.pods.length := by
  have hpop : 1 ≤ (popLoop (removeScan d.pods d.to_remove 0).1 d.pods).1.length :=
    popLoop_length _ _ h
  simp only [updateCore]
  split
  · exact hpop
  · show 1 ≤ (dispatchLoop ρ now i _ d.tasks evs pos seq).1.length
    rw [(dispatchLoop_spec ρ now i _ d.tasks evs pos seq).1]
    exact hpop

theorem updateCore_tasks {ρ : Nat → ℚ} {now : ℚ} {i : Nat} {d : Deployment}
    {evs : List Ev} {pos seq : Nat} :
    (updateCore ρ now i d evs pos seq).1.tasks.length ≤ d.tasks.length ∧
    (updateCore ρ now i d evs pos seq).1.queue_length = d.queue_length := by
  simp only [updateCore]
  split
  · exact ⟨Nat.le_refl _, rfl⟩
  · exact ⟨(dispatchLoop_spec ρ now i _ d.tasks evs pos seq).2, rfl⟩

theorem updateW_floor {ρ : Nat → ℚ} {w : World} {i : Nat} (h : PodsFloor w) :
    PodsFloor (Deployment.updateW ρ w i) := by
  unfold Deployment.updateW
  cases hg : w.deps.get? i with
  | none => simpa using h
  | some d =>
    have hd : 1 ≤ d.pods.length := h d (List.get?_mem hg)
    exact forall_mem_set h (updateCore_pods hd)

theorem updateW_qbound {ρ : Nat → ℚ} {w : World} {i : Nat} (h : QueueBound w) :
    QueueBound (Deployment.updateW ρ w i) := by
  unfold Deployment.updateW
  cases hg : w.deps.get? i with
  | none => simpa using h
  | some d =>
    have hd := h d (List.get?_mem hg)
    refine forall_mem_set h ?_
    have ht := @updateCore_tasks ρ w.now i d w.events w.pos w.seq
    rw [ht.2]
    exact Nat.le_trans ht.1 hd

theorem addPodW_floor {w : World} {i : Nat} (h : PodsFloor w) :
    PodsFloor (Deployment.addPodW w i) := by
  unfold Deployment.addPodW
  cases hg : w.deps.get? i with
  | none => simpa using h
  | some d =>
    refine forall_mem_set h ?_
    show 1 ≤ (d.pods ++ [mkPod w.fresh d]).length
    simp

theorem addPodW_qbound {w : World} {i : Nat} (h : QueueBound w) :
    QueueBound (Deployment.addPodW w i) := by
  unfold Deployment.addPodW
  cases hg : w.deps.get? i with
  | none => simpa using h
  | some d => exact forall_mem_set h (h d (List.get?_mem hg))

theorem removePodW_floor {ρ : Nat → ℚ} {w : World} {i : Nat} (h : PodsFloor w) :
    PodsFloor (removePodW ρ w i) := by
  unfold removePodW
  cases hg : w.deps.get? i with
  | none => simpa using h
  | some d =>
    exact updateW_floor (forall_mem_set h (h d (List.get?_mem hg)))

theorem removePodW_qbound {ρ : Nat → ℚ} {w : World} {i : Nat} (h : QueueBound w) :
    QueueBound (removePodW ρ w i) := by
  unfold removePodW
  cases hg : w.deps.get? i with
  | none => simpa using h
  | some d =>
    exact updateW_qbound (forall_mem_set h (h d (List.get?_mem hg)))

theorem addTaskW_floor {ρ : Nat → ℚ} {w : World} {i : Nat} {t : Task} (h : PodsFloor w) :
    PodsFloor (Deployment.addTaskW ρ w i t) := by
  unfold Deployment.addTaskW
  cases hg : w.deps.get? i with
  | none => simpa using h
  | some d =>
    have hd := h d (List.get?_mem hg)
    refine updateW_floor ?_
    split
    · exact forall_mem_set h hd
    · exact forall_mem_set h hd

theorem addTaskW_qbound {ρ : Nat → ℚ} {w : World} {i : Nat} {t : Task} (h : QueueBound w) :
    QueueBound (Deployment.addTaskW ρ w i t) := by
  unfold Deployment.addTaskW
  cases hg : w.deps.get? i with
  | none => simpa using h
  | some d =>
    have hd := h d (List.get?_mem hg)
    refine updateW_qbound ?_
    split
    · exact forall_mem_set h hd
    · rename_i hlen
      refine forall_mem_set h ?_
      show (d.tasks ++ [_]).length ≤ d.queue_length + 1
      rw [List.length_append]
      simp only [List.length_singleton]
      omega

theorem taskFinishedW_floor {ρ : Nat → ℚ} {w : World} {i : Nat} {t : Task}
    (h : PodsFloor w) : PodsFloor (taskFinishedW ρ w i t) := by
  unfold taskFinishedW
  split
  · exact addTaskW_floor h
  · exact h

theorem taskFinishedW_qbound {ρ : Nat → ℚ} {w : World} {i : Nat} {t : Task}
    (h : QueueBound w) : QueueBound (taskFinishedW ρ w i t) := by
  unfold taskFinishedW
  split
  · exact addTaskW_qbound h
  · exact h

theorem taskDoneW_floor {ρ : Nat → ℚ} {w : World} {i : Nat} {t : Task}
    (h : PodsFloor w) : PodsFloor (Deployment.taskDoneW ρ w i t) := by
  unfold Deployment.taskDoneW
  cases hg : w.deps.get? i with
  | none => simpa using h
  | some d =>
    have hd := h d (List.get?_mem hg)
    split
    · exact h
    · rename_i d2 heq
      injection heq with he
      subst he
      split
      · refine taskFinishedW_floor ?_
        exact forall_mem_set h hd
      · exact forall_mem_set h hd

theorem taskDoneW_qbound {ρ : Nat → ℚ} {w : World} {i : Nat} {t : Task}
    (h : QueueBound w) : QueueBound (Deployment.taskDoneW ρ w i t) := by
  unfold Deployment.taskDoneW
  cases hg : w.deps.get? i with
  | none => simpa using h
  | some d =>
    have hd := h d (List.get?_mem hg)
    split
    · exact h
    · rename_i d2 heq
      injection heq with he
      subst he
      split
      · refine taskFinishedW_qbound ?_
        exact forall_mem_set h hd
      · exact forall_mem_set h hd

theorem fireEventW_floor {ρ : Nat → ℚ} {w : World} {ev : Ev} (h : PodsFloor w) :
    PodsFloor (fireEventW ρ w ev) := by
  unfold fireEventW
  cases hg : w.deps.get? ev.dep with
  | none => exact taskDoneW_floor h
  | some d =>
    refine taskDoneW_floor (forall_mem_set h ?_)
    have hd := h d (List.get?_mem hg)
    simpa using hd

theorem fireEventW_qbound {ρ : Nat → ℚ} {w : World} {ev : Ev} (h : QueueBound w) :
    QueueBound (fireEventW ρ w ev) := by
  unfold fireEventW
  cases hg : w.deps.get? ev.dep with
  | none => exact taskDoneW_qbound h
  | some d =>
    exact taskDoneW_qbound (forall_mem_set h (h d (List.get?_mem hg)))

theorem runLoop_floor_aux {ρ : Nat → ℚ} : ∀ (fuel : Nat) (w w0 : World) (stop : ℚ),
    PodsFloor w → PodsFloor w0 → PodsFloor ((runLoop ρ fuel w stop).getD w0) := by
  intro fuel
  induction fuel with
  | zero => intro w w0 stop h h0; exact h0
  | succ fuel ih =>
    intro w w0 stop h h0
    unfold runLoop
    cases hp : pickNext w.events stop with
    | none => exact h
    | some ev => exact ih _ w0 stop (fireEventW_floor h) h0

theorem runLoop_floor {ρ : Nat → ℚ} (fuel : Nat) (w : World) (stop : ℚ)
    (h : PodsFloor w) : PodsFloor ((runLoop ρ fuel w stop).getD w) :=
  runLoop_floor_aux fuel w w stop h h

theorem runLoop_qbound_aux {ρ : Nat → ℚ} : ∀ (fuel : Nat) (w w0 : World) (stop : ℚ),
    QueueBound w → QueueBound w0 → QueueBound ((runLoop ρ fuel w stop).getD w0) := by
  intro fuel
  induction fuel with
  | zero => intro w w0 stop h h0; exact h0
  | succ fuel ih =>
    intro w w0 stop h h0
    unfold runLoop
    cases hp : pickNext w.events stop with
    | none => exact h
    | some ev => exact ih _ w0 stop (fireEventW_qbound h) h0

theorem runLoop_qbound {ρ : Nat → ℚ} (fuel : Nat) (w : World) (stop : ℚ)
    (h : QueueBound w) : QueueBound ((runLoop ρ fuel w stop).getD w) :=
  runLoop_qbound_aux fuel w w stop h h

theorem addTasksW_floor {ρ : Nat → ℚ} : ∀ (n : Nat) (w : World) (lt : ℚ),
    PodsFloor w → PodsFloor (addTasksW ρ w n lt) := by
  intro n
  induction n with
  | zero => intro w lt h; simpa [addTasksW] using h
  | succ n ih =>
    intro w lt h
    unfold addTasksW
    exact ih _ lt (addTaskW_floor (by simpa using h))

theorem addTasksW_qbound {ρ : Nat → ℚ} : ∀ (n : Nat) (w : World) (lt : ℚ),
    QueueBound w → QueueBound (addTasksW ρ w n lt) := by
  intro n
  induction n with
  | zero => intro w lt h; simpa [addTasksW] using h
  | succ n ih =>
    intro w lt h
    unfold addTasksW
    exact ih _ lt (addTaskW_qbound (by simpa using h))

theorem updateDeploymentsGo_floor {ρ : Nat → ℚ} : ∀ (actions : List ℤ) (i : Nat) (w : World),
    PodsFloor w → PodsFloor (updateDeploymentsGo ρ actions i w) := by
  intro actions
  induction actions with
  | nil => intro i w h; simpa [updateDeploymentsGo] using h
  | cons a rest ih =>
    intro i w h
    unfold updateDeploymentsGo
    split
    · split
      · exact ih _ _ (addPodW_floor h)
      · split
        · exact ih _ _ (removePodW_floor h)
        · exact ih _ _ h
    · exact h

theorem updateDeploymentsGo_qbound {ρ : Nat → ℚ} : ∀ (actions : List ℤ) (i : Nat) (w : World),
    QueueBound w → QueueBound (updateDeploymentsGo ρ actions i w) := by
  intro actions
  induction actions with
  | nil => intro i w h; simpa [updateDeploymentsGo] using h
  | cons a rest ih =>
    intro i w h
    unfold updateDeploymentsGo
    split
    · split
      · exact ih _ _ (addPodW_qbound h)
      · split
        · exact ih _ _ (removePodW_qbound h)
        · exact ih _ _ h
    · exact h

theorem getMetricsW_world {ρ : Nat → ℚ} {w : World} {i : Nat} :
    (Deployment.getMetricsW ρ w i).2 = Deployment.updateW ρ w i := rfl

theorem applyOp_floor {ρ : Nat → ℚ} {w : World} {o : Op} (h : PodsFloor w) :
    PodsFloor (applyOp ρ w o) := by
  cases o with
  | clusterAddTasks n lt => exact addTasksW_floor n w lt h
  | depAddTask i t => exact addTaskW_floor h
  | depAddPod i => exact addPodW_floor h
  | depRemovePod i => exact removePodW_floor h
  | depUpdate i => exact updateW_floor h
  | depGetMetrics i =>
    show PodsFloor (Deployment.getMetricsW ρ w i).2
    rw [getMetricsW_world]
    exact updateW_floor h
  | clusterRun steps fuel => exact runLoop_floor fuel w (w.now + steps) h
  | clusterUpdateDeps actions => exact updateDeploymentsGo_floor actions 0 w h
  | fire ev => exact fireEventW_floor h

theorem applyOp_qbound {ρ : Nat → ℚ} {w : World} {o : Op} (h : QueueBound w) :
    QueueBound (applyOp ρ w o) := by
  cases o with
  | clusterAddTasks n lt => exact addTasksW_qbound n w lt h
  | depAddTask i t => exact addTaskW_qbound h
  | depAddPod i => exact addPodW_qbound h
  | depRemovePod i => exact removePodW_qbound h
  | depUpdate i => exact updateW_qbound h
  | depGetMetrics i =>
    show QueueBound (Deployment.getMetricsW ρ w i).2
    rw [getMetricsW_world]
    exact updateW_qbound h
  | clusterRun steps fuel => exact runLoop_qbound fuel w (w.now + steps) h
  | clusterUpdateDeps actions => exact updateDeploymentsGo_qbound actions 0 w h
  | fire ev => exact fireEventW_qbound h

theorem applyOps_floor {ρ : Nat → ℚ} : ∀ (ops : List Op) (w : World),
    PodsFloor w → PodsFloor (applyOps ρ w ops) := by
  intro ops
  induction ops with
  | nil => intro w h; simpa [applyOps] using h
  | cons o rest ih =>
    intro w h
    show PodsFloor ((o :: rest).foldl (applyOp ρ) w)
    rw [List.foldl_cons]
    exact ih _ (applyOp_floor h)

theorem applyOps_qbound {ρ : Nat → ℚ} : ∀ (ops : List Op) (w : World),
    QueueBound w → QueueBound (applyOps ρ w ops) := by
  intro ops
  induction ops with
  | nil => intro w h; simpa [applyOps] using h
  | cons o rest ih =>
    intro w h
    show QueueBound ((o :: rest).foldl (applyOp ρ) w)
    rw [List.foldl_cons]
    exact ih _ (applyOp_qbound h)

theorem updateW_nr_done {ρ : Nat → ℚ} {w : World} {i : Nat} :
    (Deployment.updateW ρ w i).nr_done = w.nr_done := by
  unfold Deployment.updateW
  split
  · rfl
  · rfl

theorem addTaskW_nr_done {ρ : Nat → ℚ} {w : World} {i : Nat} {t : Task} :
    (Deployment.addTaskW ρ w i t).nr_done = w.nr_done := by
  unfold Deployment.addTaskW
  split
  · rfl
  · rw [updateW_nr_done]
    split <;> rfl

theorem removeScan_zero : ∀ (pods : List Pod) (i : Nat), removeScan pods 0 i = ([], 0) := by
  intro pods
  induction pods with
  | nil => intro i; rfl
  | cons p ps ih =>
    intro i
    unfold removeScan
    rw [if_neg]
    · exact ih (i + 1)
    · rintro ⟨-, hpos⟩
      omega

theorem dispatchLoop_nil_tasks (ρ : Nat → ℚ) (now : ℚ) (dep : Nat)
    (pods : List Pod) (evs : List Ev) (pos seq : Nat) :
    dispatchLoop ρ now dep pods [] evs pos seq = (pods, [], evs, pos, seq) := by
  cases pods <;> rfl

theorem updateCore_quiescent {ρ : Nat → ℚ} {now : ℚ} {i : Nat} {d : Deployment}
    {evs : List Ev} {pos seq : Nat} (hq : d.tasks = []) (hr : d.to_remove = 0) :
    updateCore ρ now i d evs pos seq = (d, evs, pos, seq, false) := by
  simp only [updateCore, hr, removeScan_zero, popLoop, hq, dispatchLoop_nil_tasks]
  rw [if_neg (by simp)]
  rw [← hr, ← hq]

theorem updateW_quiescent {ρ : Nat → ℚ} {w : World} {i : Nat} {d : Deployment}
    (hg : w.deps.get? i = some d) (hq : d.tasks = []) (hr : d.to_remove = 0) :
    Deployment.updateW ρ w i = { w with deps := w.deps.set i d } := by
  unfold Deployment.updateW
  simp only [hg]
  rw [updateCore_quiescent hq hr]
  simp

theorem get_set_self {l : List Deployment} {i : Nat} {d : Deployment}
    (h : i < l.length) : (l.set i d).get? i = some d := by
  simpa using List.get?_set_eq_of_lt d h

theorem get_some_of_lt {α : Type} (l : List α) (n : Nat) (h : n < l.length) :
    l.get? n = some (l.get ⟨n, h⟩) := List.get?_eq_get h

theorem getMetricsW_quiescent {ρ : Nat → ℚ} {w : World} {i : Nat} {d : Deployment}
    (hg : w.deps.get? i = some d) (hq : d.tasks = []) (hr : d.to_remove = 0) :
    Deployment.getMetricsW ρ w i = (metricList d, { w with deps := w.deps.set i d }) := by
  have hi : i < w.deps.length := (List.get?_eq_some.mp hg).1
  unfold Deployment.getMetricsW
  rw [updateW_quiescent hg hq hr]
  simp only [get_set_self hi]

theorem map_sum_remove_at (f : Ev → ℚ) : ∀ (l : List Ev) (k : Nat) (ev : Ev),
    l.get? k = some ev →
    ((l.take k ++ l.drop (k + 1)).map f).sum = (l.map f).sum - f ev := by
  intro l
  induction l with
  | nil => intro k ev h; simp at h
  | cons a l ih =>
    intro k ev h
    cases k with
    | zero =>
      injection h with he
      subst he
      simp
    | succ k =>
      have h' : l.get? k = some ev := h
      simp only [List.take_succ_cons, List.drop_succ_cons, List.cons_append,
        List.map_cons, List.sum_cons]
      rw [ih k ev h']
      ring

theorem length_remove_at : ∀ (l : List Ev) (k : Nat) (ev : Ev),
    l.get? k = some ev → (l.take k ++ l.drop (k + 1)).length = l.length - 1 := by
  intro l k ev h
  have hk : k < l.length := (List.get?_eq_some.mp h).1
  simp only [List.length_append, List.length_take, List.length_drop]
  omega

theorem podStep_acct {ρ : Nat → ℚ} {s : PodRun} {op : PodOp}
    (h : PodAcct s) : PodAcct (podStep ρ s op) := by
  obtain ⟨h1, h2, h3⟩ := h
  cases op with
  | dispatch t =>
    simp only [podStep, Pod.addTask, PodAcct]
    refine ⟨?_, ?_, ?_⟩
    · simp only [List.map_append, List.sum_append, List.map_cons, List.sum_cons,
        List.map_nil, List.sum_nil]
      rw [h1]
      ring
    · simp only [List.map_append, List.sum_append, List.map_cons, List.sum_cons,
        List.map_nil, List.sum_nil]
      rw [h2]
      ring
    · simp only [List.length_append, List.length_cons, List.length_nil]
      omega
  | fire k =>
    simp only [podStep, PodAcct]
    cases hk : s.pending.get? k with
    | none => exact ⟨h1, h2, h3⟩
    | some ev =>
      dsimp only
      refine ⟨?_, ?_, ?_⟩
      · rw [map_sum_remove_at Ev.cpu_usage s.pending k ev hk, h1]
        ring
      · rw [map_sum_remove_at Ev.memory_usage s.pending k ev hk, h2]
        ring
      · rw [length_remove_at s.pending k ev hk, h3]

theorem runPod_acct {ρ : Nat → ℚ} : ∀ (ops : List PodOp) (s : PodRun),
    PodAcct s → PodAcct (runPod ρ s ops) := by
  intro ops
  induction ops with
  | nil => intro s h; exact h
  | cons o rest ih =>
    intro s h
    show PodAcct ((o :: rest).foldl (podStep ρ) s)
    rw [List.foldl_cons]
    exact ih _ (podStep_acct h)

/-! ## Claim theorems -/

theorem padTo7_length (m : List (Option α)) :
    (padTo7 m).length = max 7 m.length := by
  unfold padTo7
  split <;> simp <;> omega

/-- C1: the claimed conservation identity (submitted equals queued plus
processing plus rejected plus dead plus completed, at every observation
point outside event callbacks) FAILS on the code.  In the concrete run
below, a metrics read whose update removes a pod that still holds an
in-flight task (through the shifted pop indices) leaves 3 submitted
tasks but a ledger of only 2: the task on the removed pod is counted
nowhere.  No IndexError occurs in this run (crashed stays false). -/
theorem c1_conservation_violated :
    c1final.map (fun w => (w.nr_tasks, conservationSum w, w.crashed)) =
      some (3, 2, false) := by
  with_unfolding_all decide

/-- C2, amended: a deployment queue can reach queue_length + 1 tasks but
never more, under every operation sequence from any state satisfying the
bound; and in Scenario A (one pod busy with the first task, queue_length
0) the second task is enqueued with the rejection counter left at 0,
while a third back-to-back submission is rejected, making the counter 1. -/
theorem c2_queue_bound_plus_one (ρ : Nat → ℚ) (w : World) (ops : List Op)
    (h : QueueBound w) :
    QueueBound (applyOps ρ w ops) ∧
    (c2w2.deps.map fun d => (d.tasks.length, d.queue_length, d.nr_err5xx)) = [(1, 0, 0)] ∧
    (c2w3.deps.map fun d => (d.tasks.length, d.nr_err5xx)) = [(1, 1)] :=
  ⟨applyOps_qbound ops w h,
   by with_unfolding_all decide,
   by with_unfolding_all decide⟩

/-- C2, counterexample to the claim as stated: after the second
submission of Scenario A the queue holds 1 task, which exceeds
queue_length 0, and the rejection counter is 0, not 1 (the admission
check rejects only when the queue length already exceeds queue_length
before appending). -/
theorem c2_counterexample :
    (c2w2.deps.map fun d => (d.tasks.length, d.queue_length, d.nr_err5xx)) =
      [(1, 0, 0)] := by
  with_unfolding_all decide

/-- C2, witness: the amended bound applied to the concrete Scenario A
deployment and its two submissions. -/
theorem c2_queue_bound_plus_one_witness :
    QueueBound c2w0 ∧
    (QueueBound (applyOps rho0 c2w0
       [Op.depAddTask 0 (Task.init 1000000), Op.depAddTask 0 (Task.init 1000000)]) ∧
     (c2w2.deps.map fun d => (d.tasks.length, d.queue_length, d.nr_err5xx)) = [(1, 0, 0)] ∧
     (c2w3.deps.map fun d => (d.tasks.length, d.nr_err5xx)) = [(1, 1)]) :=
  ⟨by with_unfolding_all decide,
   c2_queue_bound_plus_one rho0 c2w0
     [Op.depAddTask 0 (Task.init 1000000), Op.depAddTask 0 (Task.init 1000000)]
     (by with_unfolding_all decide)⟩

/-- C3: starting from any world whose deployments each hold at least one
pod, every sequence of removePod, addPod, addTask, update, metrics
reads, clock advances and completion firings leaves every deployment
with at least one pod. -/
theorem c3_one_pod_floor (ρ : Nat → ℚ) (w : World) (ops : List Op)
    (h : PodsFloor w) : PodsFloor (applyOps ρ w ops) :=
  applyOps_floor ops w h

/-- C3, witness: a two-deployment cluster put through removals beyond
the floor, submissions, a clock advance, a metrics read and a scale
action still has at least one pod everywhere. -/
theorem c3_one_pod_floor_witness :
    PodsFloor (initCluster [1000, 1000] [2, 1]) ∧
    PodsFloor (applyOps rho0 (initCluster [1000, 1000] [2, 1])
      [Op.depRemovePod 0, Op.depRemovePod 0, Op.depRemovePod 0, Op.depRemovePod 1,
       Op.clusterAddTasks 2 100, Op.clusterRun 50 8, Op.depGetMetrics 0,
       Op.clusterUpdateDeps [-1, 1]]) :=
  ⟨by with_unfolding_all decide,
   c3_one_pod_floor rho0 (initCluster [1000, 1000] [2, 1])
     [Op.depRemovePod 0, Op.depRemovePod 0, Op.depRemovePod 0, Op.depRemovePod 1,
      Op.clusterAddTasks 2 100, Op.clusterRun 50 8, Op.depGetMetrics 0,
      Op.clusterUpdateDeps [-1, 1]]
     (by with_unfolding_all decide)⟩

/-- C4: the idle-only scale-down claim FAILS on the code.  In the
conservation run, just before the final update the deployment holds pods
0 and 1 idle and pod 2 with one active task, with two deferred removals;
the update records removal indices 0 and 1, but after popping index 0
the list shifts, so popping index 1 removes pod 2 — a pod with an active
task — leaving only pod 1.  Separately, on a one-pod deployment with an
idle pod, removePod consumes the deferred-removal counter (2 becomes 0
here, 1 becomes 0 there) without removing any pod. -/
theorem c4_update_removes_busy_pod :
    (c1run.map fun w => w.deps.map fun d =>
        (d.to_remove, d.pods.map fun p => (p.id, p.nr_active_tasks))) =
      some [(2, [(0, 0), (1, 0), (2, 1)])] ∧
    (c1final.map fun w => w.deps.map fun d =>
        (d.to_remove, d.pods.map fun p => (p.id, p.nr_active_tasks))) =
      some [(0, [(1, 0)])] ∧
    ((removePodW rho0 c4oneIdle 0).deps.map fun d =>
        (d.to_remove, d.pods.length)) = [(0, 1)] := by
  refine ⟨?_, ?_, ?_⟩ <;> with_unfolding_all decide

/-- C5, amended: canProcess admits a task exactly when current cpu plus
a cpu-sampler draw fits under cpu_max and current memory plus a SECOND
CPU-SAMPLER draw fits under memory_max; the memory bound is checked
against a draw from the cpu sampler (cpu_task, cpu_rand), not the memory
sampler, and the second draw happens only when the first check passes. -/
theorem c5_canProcess_uses_cpu_sampler_twice (p : Pod) (ρ : Nat → ℚ) (pos : Nat) :
    (p.canProcess ρ pos).1 = true ↔
      (p.cpu + (p.getCpuUsage (ρ pos) : ℚ) ≤ p.cpu_max ∧
       p.memory + (p.getCpuUsage (ρ (pos + 1)) : ℚ) ≤ p.memory_max) := by
  simp only [Pod.canProcess]
  split_ifs with hcpu hmem
  · simp only [false_iff]
    rintro ⟨hc, -⟩
    exact absurd hcpu (not_lt.mpr hc)
  · simp only [false_iff]
    rintro ⟨-, hm⟩
    exact absurd hmem (not_lt.mpr hm)
  · simp only [true_iff]
    exact ⟨not_lt.mp hcpu, not_lt.mp hmem⟩

/-- C5, counterexample to the claim as stated: on a pod whose memory
profile (50 against headroom 25) cannot fit but whose cpu profile (20)
can, the source canProcess answers true, while the claimed behavior
(memory draw from the memory sampler) would answer false. -/
theorem c5_counterexample :
    (c5pod.canProcess rho0 0).1 = true ∧
    (canProcessClaimed c5pod rho0 0).1 = false := by
  with_unfolding_all decide

/-- C6: the claimed three-sigma clamp FAILS on the code.  At nominal 10,
randomFraction one tenth (std 1) and noise draw 100, getMetricUsage
returns 110, strictly beyond the claimed upper clamp nominal + 3 std =
13: the np.clip bounds are centered at the already-noised value, so the
clip never truncates. -/
theorem c6_no_three_sigma_clamp :
    getMetricUsage 10 (1 / 10) 100 = 110 ∧
    (10 + 3 * (10 * (1 / 10)) : ℚ) < ((getMetricUsage 10 (1 / 10) 100 : ℤ) : ℚ) := by
  with_unfolding_all decide

/-- C7: when a task leaves stage i alive, taskFinished hands exactly the
same task (its decremented lifetime untouched) to the addTask of stage
i + 1 whenever that stage exists, leaving the cluster completed counter
unchanged; when stage i is the last, the only effect is completed + 1. -/
theorem c7_pipeline_routing (ρ : Nat → ℚ) (w : World) (t : Task) (i : Nat) :
    (i + 1 < w.deps.length →
       taskFinishedW ρ w i t = Deployment.addTaskW ρ w (i + 1) t ∧
       (taskFinishedW ρ w i t).nr_done = w.nr_done) ∧
    (w.deps.length ≤ i + 1 →
       taskFinishedW ρ w i t = { w with nr_done := w.nr_done + 1 }) := by
  constructor
  · intro hlt
    constructor
    · simp [taskFinishedW, hlt]
    · simp [taskFinishedW, hlt, addTaskW_nr_done]
  · intro hge
    have : ¬ i + 1 < w.deps.length := by omega
    simp [taskFinishedW, this]

/-- C7, witness: in a three-stage cluster, a task finishing stage 1
alive is handed to the addTask of stage 2 and the cluster completed
counter does not move. -/
theorem c7_pipeline_routing_witness :
    0 + 1 < (initCluster [1000, 1000, 1000] [1, 1, 1]).deps.length ∧
    (taskFinishedW rho0 (initCluster [1000, 1000, 1000] [1, 1, 1]) 0 (Task.init 50) =
       Deployment.addTaskW rho0 (initCluster [1000, 1000, 1000] [1, 1, 1]) 1 (Task.init 50) ∧
     (taskFinishedW rho0 (initCluster [1000, 1000, 1000] [1, 1, 1]) 0 (Task.init 50)).nr_done =
       (initCluster [1000, 1000, 1000] [1, 1, 1]).nr_done) :=
  ⟨by with_unfolding_all decide,
   (c7_pipeline_routing rho0 (initCluster [1000, 1000, 1000] [1, 1, 1]) (Task.init 50) 0).1
     (by with_unfolding_all decide)⟩

/-- C8: over every interleaving of dispatches and completion firings on
a pod that starts at base usage with no active task, whenever the active
count is zero the cpu usage is exactly cpu_base and the memory usage is
exactly memory_base: each completion gives back precisely the amounts
charged at its dispatch. -/
theorem c8_usage_returns_to_base (ρ : Nat → ℚ) (p0 : Pod) (ops : List PodOp)
    (hc : p0.cpu = p0.cpu_base) (hm : p0.memory = p0.memory_base)
    (ha : p0.nr_active_tasks = 0)
    (hz : (runPod ρ ⟨p0, [], 0, 0⟩ ops).pod.nr_active_tasks = 0) :
    (runPod ρ ⟨p0, [], 0, 0⟩ ops).pod.cpu = (runPod ρ ⟨p0, [], 0, 0⟩ ops).pod.cpu_base ∧
    (runPod ρ ⟨p0, [], 0, 0⟩ ops).pod.memory = (runPod ρ ⟨p0, [], 0, 0⟩ ops).pod.memory_base := by
  have h0 : PodAcct ⟨p0, [], 0, 0⟩ := by
    refine ⟨?_, ?_, ?_⟩ <;> simp [hc, hm, ha]
  obtain ⟨h1, h2, h3⟩ := runPod_acct ops ⟨p0, [], 0, 0⟩ h0
  have hpend : (runPod ρ ⟨p0, [], 0, 0⟩ ops).pending = [] := by
    have hlen : (runPod ρ ⟨p0, [], 0, 0⟩ ops).pending.length = 0 := by
      rw [← h3, hz]
    exact List.length_eq_zero.mp hlen
  rw [hpend] at h1 h2
  constructor
  · simpa using h1
  · simpa using h2

/-- C8, witness: a fresh pod dispatched one task and fired once is back
at base cpu and base memory with no active task. -/
theorem c8_usage_returns_to_base_witness :
    c5pod.cpu = c5pod.cpu_base ∧ c5pod.memory = c5pod.memory_base ∧
    c5pod.nr_active_tasks = 0 ∧
    (runPod rho0 ⟨c5pod, [], 0, 0⟩ [PodOp.dispatch (Task.init 5), PodOp.fire 0]).pod.nr_active_tasks = 0 ∧
    ((runPod rho0 ⟨c5pod, [], 0, 0⟩ [PodOp.dispatch (Task.init 5), PodOp.fire 0]).pod.cpu =
       (runPod rho0 ⟨c5pod, [], 0, 0⟩ [PodOp.dispatch (Task.init 5), PodOp.fire 0]).pod.cpu_base ∧
     (runPod rho0 ⟨c5pod, [], 0, 0⟩ [PodOp.dispatch (Task.init 5), PodOp.fire 0]).pod.memory =
       (runPod rho0 ⟨c5pod, [], 0, 0⟩ [PodOp.dispatch (Task.init 5), PodOp.fire 0]).pod.memory_base) :=
  ⟨by with_unfolding_all decide, by with_unfolding_all decide, by with_unfolding_all decide,
   by with_unfolding_all decide,
   c8_usage_returns_to_base rho0 c5pod [PodOp.dispatch (Task.init 5), PodOp.fire 0]
     (by with_unfolding_all decide) (by with_unfolding_all decide)
     (by with_unfolding_all decide) (by with_unfolding_all decide)⟩

/-- C9, amended: two back-to-back metrics reads agree whenever the
deployment is quiescent at the first read — empty queue and no pending
removal — because then the update inside each read changes nothing; with
a non-empty queue the second update consumes fresh admission draws and
may dispatch a previously blocked task, changing the result. -/
theorem c9_metrics_idempotent_when_quiescent (ρ : Nat → ℚ) (w : World) (i : Nat)
    (d : Deployment) (hg : w.deps.get? i = some d) (hq : d.tasks = [])
    (hr : d.to_remove = 0) :
    (Deployment.getMetricsW ρ w i).1 =
      (Deployment.getMetricsW ρ (Deployment.getMetricsW ρ w i).2 i).1 := by
  have hi : i < w.deps.length := (List.get?_eq_some.mp hg).1
  have h1 := @getMetricsW_quiescent ρ _ _ _ hg hq hr
  have hg2 : ({ w with deps := w.deps.set i d }).deps.get? i = some d :=
    get_set_self (by simpa using hi)
  have h2 := @getMetricsW_quiescent ρ _ _ _ hg2 hq hr
  rw [h1]
  show metricList d = (Deployment.getMetricsW ρ { w with deps := w.deps.set i d } i).1
  rw [h2]

/-- C9, counterexample to the claim as stated: with one task in flight
and one task queued, two metrics reads with no clock advance and no
submission in between return different tuples — the first read leaves
the queued task blocked, the second read draws again and dispatches it. -/
theorem c9_counterexample :
    c9m1.1 = [1, 1, 1, 25, 100, 25, 100, 1, 0, 0, 0] ∧
    c9m2.1 = [1, 1, 2, 45, 100, 45, 100, 0, 0, 0, 0] := by
  constructor <;> with_unfolding_all decide

/-- C9, witness: on a freshly built one-pod cluster (empty queue, no
pending removal) two consecutive metrics reads agree. -/
theorem c9_metrics_idempotent_witness :
    (Deployment.getMetricsW rho0 (initCluster [1000] [1]) 0).1 =
      (Deployment.getMetricsW rho0
        (Deployment.getMetricsW rho0 (initCluster [1000] [1]) 0).2 0).1 :=
  c9_metrics_idempotent_when_quiescent rho0 (initCluster [1000] [1]) 0
    ((initCluster [1000] [1]).deps.headD (initDeploymentBare "x" 0 0 0 0 0 0 0 0 0))
    (by with_unfolding_all decide) (by with_unfolding_all decide)
    (by with_unfolding_all decide)

/-- C10: Metric.setMetric succeeds exactly on metric lists of length at
least 11; every shorter list (including one of exactly length 7, the
length its own padding branch produces) raises an index error, because
the padding stops at 7 while indices 7 through 10 are always read. -/
theorem c10_setMetric_needs_eleven {α : Type} (m : List (Option α)) :
    (setMetric m).isSome ↔ 11 ≤ m.length := by
  have hL : (padTo7 m).length = max 7 m.length := padTo7_length m
  unfold setMetric
  constructor
  · intro hs
    by_contra h11
    push_neg at h11
    have hl11 : (padTo7 m).length < 11 := by omega
    have e0 := get_some_of_lt (padTo7 m) 0 (by omega)
    have e1 := get_some_of_lt (padTo7 m) 1 (by omega)
    have e2 := get_some_of_lt (padTo7 m) 2 (by omega)
    have e3 := get_some_of_lt (padTo7 m) 3 (by omega)
    have e4 := get_some_of_lt (padTo7 m) 4 (by omega)
    have e5 := get_some_of_lt (padTo7 m) 5 (by omega)
    have e6 := get_some_of_lt (padTo7 m) 6 (by omega)
    rcases Nat.lt_or_ge (padTo7 m).length 8 with h8 | h8
    · have g : (padTo7 m).get? 7 = none := by rw [List.get?_eq_none]; omega
      rw [e0, e1, e2, e3, e4, e5, e6, g] at hs
      simp at hs
    · have e7 := get_some_of_lt (padTo7 m) 7 (by omega)
      rcases Nat.lt_or_ge (padTo7 m).length 9 with h9 | h9
      · have g : (padTo7 m).get? 8 = none := by rw [List.get?_eq_none]; omega
        rw [e0, e1, e2, e3, e4, e5, e6, e7, g] at hs
        simp at hs
      · have e8 := get_some_of_lt (padTo7 m) 8 (by omega)
        rcases Nat.lt_or_ge (padTo7 m).length 10 with h10 | h10
        · have g : (padTo7 m).get? 9 = none := by rw [List.get?_eq_none]; omega
          rw [e0, e1, e2, e3, e4, e5, e6, e7, e8, g] at hs
          simp at hs
        · have e9 := get_some_of_lt (padTo7 m) 9 (by omega)
          have g : (padTo7 m).get? 10 = none := by rw [List.get?_eq_none]; omega
          rw [e0, e1, e2, e3, e4, e5, e6, e7, e8, e9, g] at hs
          simp at hs
  · intro h11
    have e0 := get_some_of_lt (padTo7 m) 0 (by omega)
    have e1 := get_some_of_lt (padTo7 m) 1 (by omega)
    have e2 := get_some_of_lt (padTo7 m) 2 (by omega)
    have e3 := get_some_of_lt (padTo7 m) 3 (by omega)
    have e4 := get_some_of_lt (padTo7 m) 4 (by omega)
    have e5 := get_some_of_lt (padTo7 m) 5 (by omega)
    have e6 := get_some_of_lt (padTo7 m) 6 (by omega)
    have e7 := get_some_of_lt (padTo7 m) 7 (by omega)
    have e8 := get_some_of_lt (padTo7 m) 8 (by omega)
    have e9 := get_some_of_lt (padTo7 m) 9 (by omega)
    have e10 := get_some_of_lt (padTo7 m) 10 (by omega)
    rw [e0, e1, e2, e3, e4, e5, e6, e7, e8, e9, e10]
    simp

end ClusterSim
